import Mathlib

/-!
Shallow embedding of the picoclaw EmailChannel (pkg/channels, email channel
source file) and the parts of the channel/bus contract it relies on.

The embedding models the poll cycle (`checkAccountMail`), per-message
processing (`processMessage`), the outbound `Send` path (`sendEmail`),
the manual-check slot (`CheckNow` on a capacity-1 channel) and channel
start-up (`Start`).  Network I/O (IMAP/SMTP) is abstracted: the mailbox
is an explicit list of messages, and SMTP transport steps are driven by
an oracle assigning each step an optional error, mirroring the Go code's
early-return error handling.  Go byte lengths on ASCII strings are
modelled by character counts.
-/

set_option maxRecDepth 8192

namespace Picoclaw

/-- An address from an IMAP envelope (`imap.Address`): `MailboxName@HostName`. -/
structure Address where
  mailboxName : String
  hostName : String
deriving DecidableEq

/-- An IMAP envelope: date (seconds since epoch), subject, From addresses.
`fromAddrs` models the Go field `From` (a reserved word in Lean). -/
structure Envelope where
  date : Int
  subject : String
  fromAddrs : List Address
deriving DecidableEq

/-- One inline MIME part of a message body, as seen by the
`mail.CreateReader` / `NextPart` loop: its Content-Type and decoded content. -/
structure MailPart where
  contentType : String
  content : String
deriving DecidableEq

/-- A message in the mail store.  `hasBody` models `msg.GetBody(section)`
returning non-nil and `mail.CreateReader` succeeding; `seen` is the
mail-store "seen" flag. -/
structure Message where
  uid : Nat
  envelope : Option Envelope
  parts : List MailPart
  hasBody : Bool
  seen : Bool
deriving DecidableEq

/-- Model of `bus.InboundMessage` as published by `HandleMessage`. -/
structure InboundMessage where
  channel : String
  senderID : String
  chatID : String
  content : String
  metadata : List (String × String)
deriving DecidableEq

/-- Model of `bus.OutboundMessage` as published by `PublishOutbound`. -/
structure OutboundMessage where
  channel : String
  chatID : String
  content : String
deriving DecidableEq

/-- Modelled from the spec: `BaseChannel.IsAllowed` (the BaseChannel source
is not in the repository snapshot; spec 4.2: "returns true if the allow-list
is empty, or if senderID case-sensitively matches an entry"). -/
def IsAllowed (allowList : List String) (sender : String) : Bool :=
  allowList.isEmpty || allowList.contains sender

/-- Modelled from the spec: `BaseChannel.HandleMessage` (BaseChannel source
not in the snapshot; spec 4.2: applies the allow-list check, then calls
`PublishInbound`).  `busOk` abstracts the outcome of the bus hand-off; the
returned list holds exactly the messages successfully handed to the bus. -/
def HandleMessage (allowList : List String) (busOk : Bool)
    (sender chatID content : String) (metadata : List (String × String)) :
    List InboundMessage :=
  if IsAllowed allowList sender && busOk then
    [⟨"email", sender, chatID, content, metadata⟩]
  else []

/-- Body-extraction loop of `processMessage`: for each inline part, a
`text/plain` part overwrites the body; a `text/html` part is used only
while the body is still empty; every other content type is ignored. -/
def extractBodyAux (body : String) : List MailPart → String
  | [] => body
  | p :: rest =>
    if p.contentType = "text/plain" then extractBodyAux p.content rest
    else if p.contentType = "text/html" ∧ body = "" then extractBodyAux p.content rest
    else extractBodyAux body rest

/-- Body extraction starting from the empty string (`var body string`). -/
def extractBody (parts : List MailPart) : String :=
  extractBodyAux "" parts

/-- Function `contentWithContext` from the email channel source. -/
def contentWithContext (account subject body : String) : String :=
  "[Received at " ++ account ++ "]\nSubject: " ++ subject ++ "\n\n" ++ body

/-- Header portion of the forward notification
(`fmt.Sprintf("📧 **New Email [%s]**\n**From:** %s\n**Subject:** %s\n\n%s", ...)`). -/
def forwardHeader (accountEmail sender subject : String) : String :=
  "📧 **New Email [" ++ accountEmail ++ "]**\n**From:** " ++ sender ++
    "\n**Subject:** " ++ subject ++ "\n\n"

/-- Scanner for `splitN2`: find the first separator, keeping the rest intact. -/
def splitN2Aux (sep : Char) (acc : List Char) : List Char → List String
  | [] => [String.mk acc.reverse]
  | c :: cs =>
    if c = sep then [String.mk acc.reverse, String.mk cs]
    else splitN2Aux sep (c :: acc) cs

/-- Go `strings.SplitN(s, sep, 2)` for the single-character separator the
channel uses (`":"`): at most two pieces, the second keeping any further
separators.  (Defined over the character list so it evaluates in the kernel.) -/
def splitN2 (s : String) (sep : Char) : List String :=
  splitN2Aux sep [] s.data

/-- Go `strings.TrimSpace`: drop leading and trailing whitespace.
(Defined over the character list so it evaluates in the kernel.) -/
def trimSpace (s : String) : String :=
  ⟨((s.data.dropWhile Char.isWhitespace).reverse.dropWhile Char.isWhitespace).reverse⟩

/-- Sender string built by `processMessage`:
`fmt.Sprintf("%s@%s", from[0].MailboxName, from[0].HostName)`. -/
def senderOf (a : Address) : String :=
  a.mailboxName ++ "@" ++ a.hostName

/-- What one `processMessage` call publishes: inbound messages successfully
handed to the bus via `HandleMessage`, and outbound forward notifications
handed to `PublishOutbound`. -/
structure ProcessResult where
  inbound : List InboundMessage
  outbound : List OutboundMessage
deriving DecidableEq

/-- Model of `EmailChannel.processMessage`: nil-envelope and empty-From guard, sender
extraction, allow-list check, body extraction, forward-target publication
(with the over-500-character truncation), then `HandleMessage` with the
full body.  `busOk` abstracts whether the inbound bus hand-off succeeds. -/
def processMessage (allowList : List String) (forwardTo accountEmail : String)
    (busOk : Bool) (msg : Message) : ProcessResult :=
  match msg.envelope with
  | none => ⟨[], []⟩
  | some env =>
    match env.fromAddrs with
    | [] => ⟨[], []⟩
    | addr :: _ =>
      let sender := senderOf addr
      if IsAllowed allowList sender then
        if msg.hasBody then
          let body := extractBody msg.parts
          let chatID := sender
          let outbound :=
            if forwardTo ≠ "" then
              match splitN2 forwardTo ':' with
              | [channel, targetChatID] =>
                let forwardContent :=
                  if body.length > 500 then
                    forwardHeader accountEmail sender env.subject ++
                      body.take 500 ++ "..."
                  else
                    forwardHeader accountEmail sender env.subject ++ body
                [OutboundMessage.mk channel targetChatID forwardContent]
              | _ => []
            else []
          ⟨HandleMessage allowList busOk sender chatID
              (contentWithContext accountEmail env.subject body)
              [("subject", env.subject), ("email", sender), ("to", accountEmail)],
            outbound⟩
        else ⟨[], []⟩
      else ⟨[], []⟩

/-- Staleness filter of `checkAccountMail`:
`msg.Envelope != nil && time.Since(msg.Envelope.Date) > 1*time.Hour`
(times in seconds, so one hour is 3600). -/
def staleFilter (now : Int) (msg : Message) : Bool :=
  match msg.envelope with
  | some env => decide (now - env.date > 3600)
  | none => false

/-- The selected INBOX: its messages in mail-store (ascending sequence) order. -/
structure Mailbox where
  messages : List Message
deriving DecidableEq

/-- UIDs returned by `Search` for `WithoutFlags = [Seen]`, in mailbox order. -/
def unreadUids (mbox : Mailbox) : List Nat :=
  (mbox.messages.filter (fun m => !m.seen)).map (fun m => m.uid)

/-- Constant `maxEmails = 10` from `checkAccountMail`. -/
def maxEmails : Nat := 10

/-- The cap `if len(uids) > maxEmails { uids = uids[len(uids)-maxEmails:] }`. -/
def cappedUids (uids : List Nat) : List Nat :=
  if uids.length > maxEmails then uids.drop (uids.length - maxEmails) else uids

/-- The messages actually fetched in a cycle: those whose UID is in the
capped unread set, in mailbox order. -/
def fetchedMessages (mbox : Mailbox) : List Message :=
  mbox.messages.filter (fun m => (cappedUids (unreadUids mbox)).contains m.uid)

/-- Model of `Store(seq, +FLAGS, \Seen)` for one UID: set the seen flag on that message. -/
def markSeen (mbox : Mailbox) (uid : Nat) : Mailbox :=
  ⟨mbox.messages.map (fun m => if m.uid = uid then { m with seen := true } else m)⟩

/-- Result of one `checkAccountMail` cycle: the updated mail store and
everything published to the bus. -/
structure PollResult where
  mailbox : Mailbox
  inbound : List InboundMessage
  outbound : List OutboundMessage
deriving DecidableEq

/-- Body of the `for msg := range messages` loop in `checkAccountMail`:
skip (continue) if the staleness filter fires, otherwise process the
message and then mark it seen unconditionally. -/
def pollStep (now : Int) (allowList : List String) (forwardTo accountEmail : String)
    (busOk : Bool) (acc : PollResult) (msg : Message) : PollResult :=
  if staleFilter now msg then acc
  else
    let pr := processMessage allowList forwardTo accountEmail busOk msg
    ⟨markSeen acc.mailbox msg.uid, acc.inbound ++ pr.inbound, acc.outbound ++ pr.outbound⟩

/-- Model of `EmailChannel.checkAccountMail` on one selected mailbox: early return on
an empty mailbox or no unread messages, otherwise cap the unread set to the
last 10 UIDs, fetch those messages and run the processing loop. -/
def checkAccountMail (now : Int) (allowList : List String)
    (forwardTo accountEmail : String) (busOk : Bool) (mbox : Mailbox) : PollResult :=
  if mbox.messages.isEmpty then ⟨mbox, [], []⟩
  else
    if (unreadUids mbox).isEmpty then ⟨mbox, [], []⟩
    else
      (fetchedMessages mbox).foldl
        (pollStep now allowList forwardTo accountEmail busOk) ⟨mbox, [], []⟩

/-- Whether the message with UID `u` is marked seen in the store. -/
def uidSeen (mbox : Mailbox) (u : Nat) : Bool :=
  mbox.messages.any (fun m => m.uid == u && m.seen)

/-- Whether a message with UID `u` exists in the store. -/
def uidPresent (mbox : Mailbox) (u : Nat) : Bool :=
  mbox.messages.any (fun m => m.uid == u)

/-- The fetched messages that pass the staleness filter — exactly the ones
the loop processes and marks. -/
def nonStaleFetched (now : Int) (mbox : Mailbox) : List Message :=
  (fetchedMessages mbox).filter (fun m => !staleFilter now m)

/-- Model of `config.EmailAccountConfig`. -/
structure EmailAccountConfig where
  email : String
  imapServer : String
  imapPort : Nat
  imapUser : String
  imapPassword : String
  smtpServer : String
  smtpPort : Nat
  smtpUser : String
  smtpPassword : String
deriving DecidableEq

/-- Model of `config.EmailConfig`: the account list plus the legacy single-account
fields and channel options used by the email channel. -/
structure EmailConfig where
  accounts : List EmailAccountConfig
  imapServer : String
  imapPort : Nat
  imapUser : String
  imapPassword : String
  smtpServer : String
  smtpPort : Nat
  smtpUser : String
  smtpPassword : String
  allowFrom : List String
  forwardTo : String
  pollInterval : Nat
deriving DecidableEq

/-- Account synthesis in `NewEmailChannel`: if `Accounts` is empty but the
legacy `IMAPServer` field is set, populate `Accounts` with one entry built
from the single-account fields (email defaulting to the IMAP user). -/
def effectiveAccounts (cfg : EmailConfig) : List EmailAccountConfig :=
  if cfg.accounts.isEmpty ∧ cfg.imapServer ≠ "" then
    [{ email := cfg.imapUser, imapServer := cfg.imapServer, imapPort := cfg.imapPort,
       imapUser := cfg.imapUser, imapPassword := cfg.imapPassword,
       smtpServer := cfg.smtpServer, smtpPort := cfg.smtpPort,
       smtpUser := cfg.smtpUser, smtpPassword := cfg.smtpPassword }]
  else cfg.accounts

/-- One step of the SMTP session in `Send`.  The port-465 branch performs
them individually; the other branch delegates to `smtp.SendMail`, whose
whole plaintext-then-STARTTLS exchange is one step. -/
inductive SmtpStep where
  | tlsDial
  | newClient
  | auth
  | mailFrom
  | rcptTo
  | data
  | writeBody
  | closeWriter
  | sendMailStartTLS
deriving DecidableEq, Repr

/-- Outcome of a `Send` call.  `panicked` models the Go runtime panic from
indexing `c.config.Accounts[0]` on an empty slice; `failed e` models
returning the transport error `e`; `sentOk` a nil return after delivery;
`checkTriggered` the nil return on the `CMD:CHECK` path. -/
inductive SendResult where
  | checkTriggered
  | panicked
  | sentOk
  | failed (e : String)
deriving DecidableEq

/-- Run SMTP steps in order against a transport oracle; the first failing
step aborts with its error (the Go code returns each `err` immediately),
and the second component records the steps actually executed. -/
def runSteps (oracle : SmtpStep → Option String) :
    List SmtpStep → SendResult × List SmtpStep
  | [] => (.sentOk, [])
  | s :: rest =>
    match oracle s with
    | some e => (.failed e, [s])
    | none =>
      let r := runSteps oracle rest
      (r.1, s :: r.2)

/-- Step order of the port-465 branch of `Send`: `tls.Dial`,
`smtp.NewClient`, `Auth`, `Mail`, `Rcpt`, `Data`, `Write`, `Close`. -/
def smtp465Order : List SmtpStep :=
  [.tlsDial, .newClient, .auth, .mailFrom, .rcptTo, .data, .writeBody, .closeWriter]

/-- Model of `EmailChannel.CheckNow` acting on the capacity-1 `manualCheck` channel,
modelled as a Bool slot (`true` = a check is pending): the non-blocking
`select` fills an empty slot and silently skips when it is already full. -/
def checkNow (slot : Bool) : Bool :=
  if slot then slot else true

/-- The poll loop consuming the manual-check slot: yields how many extra
poll cycles run and the slot afterwards. -/
def consumeCheck (slot : Bool) : Nat × Bool :=
  if slot then (1, false) else (0, slot)

/-- Everything observable about one `EmailChannel.Send` call: its result,
the transport steps executed, the account selected, and the manual-check
slot afterwards. -/
structure SendOutput where
  result : SendResult
  trace : List SmtpStep
  usedAccount : Option EmailAccountConfig
  manualCheckSlot : Bool
deriving DecidableEq

/-- Model of `EmailChannel.Send`: if the trimmed content is `"CMD:CHECK"`, trigger
`CheckNow` and return nil with no transport step; otherwise index
`Accounts[0]` (panicking when empty) and run the SMTP session chosen by
the account's SMTP port (465 = direct TLS, otherwise `smtp.SendMail`). -/
def sendEmail (accounts : List EmailAccountConfig) (content : String)
    (oracle : SmtpStep → Option String) (slot : Bool) : SendOutput :=
  if trimSpace content = "CMD:CHECK" then
    ⟨.checkTriggered, [], none, checkNow slot⟩
  else
    match accounts with
    | [] => ⟨.panicked, [], none, slot⟩
    | account :: _ =>
      let run :=
        if account.smtpPort = 465 then runSteps oracle smtp465Order
        else runSteps oracle [.sendMailStartTLS]
      ⟨run.1, run.2, some account, slot⟩

/-- Run-state of the channel: the `running` flag set via `setRunning` and
the number of `pollLoop` goroutines spawned so far. -/
structure RunState where
  running : Bool
  pollLoops : Nat
deriving DecidableEq

/-- Model of `BaseChannel.setRunning`. -/
def setRunning (s : RunState) (b : Bool) : RunState :=
  { s with running := b }

/-- Model of `EmailChannel.Start` as it acts on the run state: it unconditionally
calls `setRunning(true)`, spawns one more `pollLoop` goroutine, and
returns nil (the initial `connectAllIMAP` network attempt does not touch
the run state and is omitted). -/
def startEmail (s : RunState) : RunState × Option String :=
  (⟨(setRunning s true).running, s.pollLoops + 1⟩, none)

/-! ### Helper lemmas about the mail-store model -/

/-- Marking one UID seen is a `map` over the store. -/
theorem markSeen_messages (mbox : Mailbox) (u : Nat) :
    (markSeen mbox u).messages =
      mbox.messages.map (fun m => if m.uid = u then { m with seen := true } else m) := rfl

/-- Any-of-a-conjunction is `any` over the matching sub-list. -/
theorem any_and_eq_filter_any {α} (l : List α) (p q : α → Bool) :
    l.any (fun a => p a && q a) = (l.filter p).any q := by
  induction l with
  | nil => rfl
  | cons a t ih =>
    cases hp : p a
    · simp only [List.any_cons, List.filter_cons, hp, Bool.false_and, Bool.false_or, if_neg]
      exact ih
    · simp only [List.any_cons, List.filter_cons, hp, Bool.true_and, if_pos, List.any_cons]
      rw [ih]

/-- Reading `uidSeen` through the sub-store of entries with the given UID. -/
theorem uidSeen_eq_filter_any (mbox : Mailbox) (u : Nat) :
    uidSeen mbox u = (mbox.messages.filter (fun m => m.uid == u)).any (fun m => m.seen) :=
  any_and_eq_filter_any mbox.messages _ _

/-- Reading `uidPresent` through the sub-store of entries with the given UID. -/
theorem uidPresent_eq_filter_any (mbox : Mailbox) (u : Nat) :
    uidPresent mbox u =
      (mbox.messages.filter (fun m => m.uid == u)).any (fun _ => true) := by
  unfold uidPresent
  rw [← any_and_eq_filter_any]
  congr 1
  funext m
  simp

/-- Marking some other UID leaves the sub-store of a UID untouched. -/
theorem markSeen_filter_ne (mbox : Mailbox) (u u' : Nat) (h : u' ≠ u) :
    (markSeen mbox u').messages.filter (fun m => m.uid == u) =
      mbox.messages.filter (fun m => m.uid == u) := by
  rw [markSeen_messages]
  induction mbox.messages with
  | nil => rfl
  | cons m rest ih =>
    rw [List.map_cons]
    by_cases hm : m.uid = u'
    · have hne : (m.uid == u) = false := by
        rw [hm]
        exact beq_false_of_ne h
      rw [if_pos hm, List.filter_cons, List.filter_cons]
      rw [hne]
      simpa using ih
    · rw [if_neg hm, List.filter_cons, List.filter_cons]
      cases hmu : (m.uid == u)
      · simpa using ih
      · simp only [if_pos]
        rw [ih]

/-- Marking preserves which UIDs are present. -/
theorem uidPresent_markSeen (mbox : Mailbox) (u u' : Nat) :
    uidPresent (markSeen mbox u') u = uidPresent mbox u := by
  unfold uidPresent
  rw [markSeen_messages, List.any_map]
  congr 1
  funext m
  by_cases hm : m.uid = u' <;> simp [hm]

/-- Marking never clears a seen flag. -/
theorem uidSeen_markSeen_mono (mbox : Mailbox) (u u' : Nat)
    (h : uidSeen mbox u = true) : uidSeen (markSeen mbox u') u = true := by
  unfold uidSeen at h ⊢
  rw [markSeen_messages, List.any_map]
  rw [List.any_eq_true] at h ⊢
  obtain ⟨m, hmem, hp⟩ := h
  refine ⟨m, hmem, ?_⟩
  by_cases hm : m.uid = u' <;> simp_all

/-- Marking a present UID makes it seen. -/
theorem uidSeen_markSeen_self (mbox : Mailbox) (u : Nat)
    (h : uidPresent mbox u = true) : uidSeen (markSeen mbox u) u = true := by
  unfold uidPresent at h
  unfold uidSeen
  rw [markSeen_messages, List.any_map]
  rw [List.any_eq_true] at h ⊢
  obtain ⟨m, hmem, hp⟩ := h
  refine ⟨m, hmem, ?_⟩
  have : m.uid = u := by simpa using hp
  simp [this]

/-- Folding `markSeen` over a batch of messages, as the poll loop does. -/
def markFold (mbox : Mailbox) (l : List Message) : Mailbox :=
  l.foldl (fun mb m => markSeen mb m.uid) mbox

theorem markFold_nil (mbox : Mailbox) : markFold mbox [] = mbox := rfl

theorem markFold_cons (mbox : Mailbox) (m : Message) (rest : List Message) :
    markFold mbox (m :: rest) = markFold (markSeen mbox m.uid) rest := rfl

/-- A batch not containing a UID leaves that UID's sub-store untouched. -/
theorem markFold_filter_ne (u : Nat) :
    ∀ (l : List Message) (mbox : Mailbox), (∀ m ∈ l, m.uid ≠ u) →
      (markFold mbox l).messages.filter (fun m => m.uid == u) =
        mbox.messages.filter (fun m => m.uid == u)
  | [], mbox, _ => rfl
  | m :: rest, mbox, h => by
    rw [markFold_cons,
      markFold_filter_ne u rest (markSeen mbox m.uid) (fun x hx => h x (.tail m hx)),
      markSeen_filter_ne mbox u m.uid (h m (.head rest))]

theorem markFold_present (u : Nat) :
    ∀ (l : List Message) (mbox : Mailbox),
      uidPresent (markFold mbox l) u = uidPresent mbox u
  | [], _ => rfl
  | m :: rest, mbox => by
    rw [markFold_cons, markFold_present u rest, uidPresent_markSeen]

theorem markFold_mono (u : Nat) :
    ∀ (l : List Message) (mbox : Mailbox), uidSeen mbox u = true →
      uidSeen (markFold mbox l) u = true
  | [], _, h => h
  | m :: rest, mbox, h => by
    rw [markFold_cons]
    exact markFold_mono u rest _ (uidSeen_markSeen_mono mbox u m.uid h)

/-- After folding over a batch containing a present UID, that UID is seen. -/
theorem markFold_seen (u : Nat) :
    ∀ (l : List Message) (mbox : Mailbox), uidPresent mbox u = true →
      (∃ m ∈ l, m.uid = u) → uidSeen (markFold mbox l) u = true
  | [], _, _, hex => by simp at hex
  | m :: rest, mbox, hpres, hex => by
    rw [markFold_cons]
    by_cases hm : m.uid = u
    · apply markFold_mono
      rw [← hm]
      exact uidSeen_markSeen_self mbox m.uid (hm ▸ hpres)
    · obtain ⟨m', hm', hu'⟩ := hex
      cases hm' with
      | head => exact absurd hu' hm
      | tail _ hm' =>
        exact markFold_seen u rest _ ((uidPresent_markSeen mbox u m.uid).trans hpres) ⟨m', hm', hu'⟩

/-- The mail-store component of the poll loop: exactly the non-stale part of
the batch gets marked, in order. -/
theorem pollFold_mailbox (now : Int) (aL : List String) (fT aE : String) (busOk : Bool) :
    ∀ (l : List Message) (acc : PollResult),
      (l.foldl (pollStep now aL fT aE busOk) acc).mailbox =
        markFold acc.mailbox (l.filter (fun m => !staleFilter now m))
  | [], _ => rfl
  | m :: rest, acc => by
    rw [List.foldl_cons, List.filter_cons]
    cases hs : staleFilter now m
    · simp only [Bool.not_false, if_pos]
      rw [pollFold_mailbox now aL fT aE busOk rest, markFold_cons]
      congr 1
      unfold pollStep
      rw [hs]
      simp
    · simp only [Bool.not_true, if_neg]
      rw [pollFold_mailbox now aL fT aE busOk rest]
      congr 1
      unfold pollStep
      rw [hs]
      simp

/-- The inbound component of the poll loop: what the non-stale part of the
batch publishes, in order. -/
theorem pollFold_inbound (now : Int) (aL : List String) (fT aE : String) (busOk : Bool) :
    ∀ (l : List Message) (acc : PollResult),
      (l.foldl (pollStep now aL fT aE busOk) acc).inbound =
        acc.inbound ++ (l.filter (fun m => !staleFilter now m)).flatMap
          (fun m => (processMessage aL fT aE busOk m).inbound)
  | [], acc => by simp
  | m :: rest, acc => by
    rw [List.foldl_cons, List.filter_cons]
    cases hs : staleFilter now m
    · simp only [Bool.not_false, if_pos, List.flatMap_cons]
      rw [pollFold_inbound now aL fT aE busOk rest]
      unfold pollStep
      rw [hs]
      simp
    · simp only [Bool.not_true, if_neg]
      rw [pollFold_inbound now aL fT aE busOk rest]
      unfold pollStep
      rw [hs]
      simp

/-- The outbound component of the poll loop. -/
theorem pollFold_outbound (now : Int) (aL : List String) (fT aE : String) (busOk : Bool) :
    ∀ (l : List Message) (acc : PollResult),
      (l.foldl (pollStep now aL fT aE busOk) acc).outbound =
        acc.outbound ++ (l.filter (fun m => !staleFilter now m)).flatMap
          (fun m => (processMessage aL fT aE busOk m).outbound)
  | [], acc => by simp
  | m :: rest, acc => by
    rw [List.foldl_cons, List.filter_cons]
    cases hs : staleFilter now m
    · simp only [Bool.not_false, if_pos, List.flatMap_cons]
      rw [pollFold_outbound now aL fT aE busOk rest]
      unfold pollStep
      rw [hs]
      simp
    · simp only [Bool.not_true, if_neg]
      rw [pollFold_outbound now aL fT aE busOk rest]
      unfold pollStep
      rw [hs]
      simp

/-- The early-return branches of `checkAccountMail` coincide with an empty
fetch, so the whole cycle is the fold over the fetched batch. -/
theorem checkAccountMail_eq_foldl (now : Int) (aL : List String) (fT aE : String)
    (busOk : Bool) (mbox : Mailbox) :
    checkAccountMail now aL fT aE busOk mbox =
      (fetchedMessages mbox).foldl (pollStep now aL fT aE busOk) ⟨mbox, [], []⟩ := by
  unfold checkAccountMail
  by_cases h0 : mbox.messages.isEmpty
  · rw [if_pos h0]
    have : fetchedMessages mbox = [] := by
      unfold fetchedMessages
      rw [List.isEmpty_iff.mp h0]
      rfl
    rw [this]
    rfl
  · rw [if_neg h0]
    by_cases h1 : (unreadUids mbox).isEmpty
    · rw [if_pos h1]
      have hcap : cappedUids (unreadUids mbox) = [] := by
        unfold cappedUids
        rw [List.isEmpty_iff.mp h1]
        rfl
      have : fetchedMessages mbox = [] := by
        unfold fetchedMessages
        rw [hcap]
        simp [List.filter_eq_nil_iff]
      rw [this]
      rfl
    · rw [if_neg h1]

/-- A poll cycle never adds or removes store entries for a UID. -/
theorem uidPresent_checkAccountMail (now : Int) (aL : List String) (fT aE : String)
    (busOk : Bool) (mbox : Mailbox) (u : Nat) :
    uidPresent (checkAccountMail now aL fT aE busOk mbox).mailbox u = uidPresent mbox u := by
  rw [checkAccountMail_eq_foldl, pollFold_mailbox, markFold_present]

/-- A UID outside the processed (non-stale fetched) batch keeps its seen flag. -/
theorem uidSeen_checkAccountMail_ne (now : Int) (aL : List String) (fT aE : String)
    (busOk : Bool) (mbox : Mailbox) (u : Nat)
    (hne : ∀ m ∈ nonStaleFetched now mbox, m.uid ≠ u) :
    uidSeen (checkAccountMail now aL fT aE busOk mbox).mailbox u = uidSeen mbox u := by
  have hne' : ∀ m ∈ (fetchedMessages mbox).filter (fun m => !staleFilter now m),
      m.uid ≠ u := hne
  rw [checkAccountMail_eq_foldl, pollFold_mailbox, uidSeen_eq_filter_any,
    markFold_filter_ne u _ _ hne', ← uidSeen_eq_filter_any]

/-- The inbound traffic of a cycle comes exactly from the non-stale fetched batch. -/
theorem checkAccountMail_inbound (now : Int) (aL : List String) (fT aE : String)
    (busOk : Bool) (mbox : Mailbox) :
    (checkAccountMail now aL fT aE busOk mbox).inbound =
      (nonStaleFetched now mbox).flatMap
        (fun m => (processMessage aL fT aE busOk m).inbound) := by
  rw [checkAccountMail_eq_foldl, pollFold_inbound]
  rfl

/-- The outbound traffic of a cycle comes exactly from the non-stale fetched batch. -/
theorem checkAccountMail_outbound (now : Int) (aL : List String) (fT aE : String)
    (busOk : Bool) (mbox : Mailbox) :
    (checkAccountMail now aL fT aE busOk mbox).outbound =
      (nonStaleFetched now mbox).flatMap
        (fun m => (processMessage aL fT aE busOk m).outbound) := by
  rw [checkAccountMail_eq_foldl, pollFold_outbound]
  rfl

/-- With distinct UIDs, an unseen store entry witnesses `uidSeen = false`. -/
theorem uidSeen_false_of_unseen (mbox : Mailbox) (msg : Message)
    (hmem : msg ∈ mbox.messages) (hunseen : msg.seen = false)
    (hnodup : (mbox.messages.map (fun m => m.uid)).Nodup) :
    uidSeen mbox msg.uid = false := by
  cases hval : uidSeen mbox msg.uid
  · rfl
  · exfalso
    unfold uidSeen at hval
    rw [List.any_eq_true] at hval
    obtain ⟨m', hm'mem, hp⟩ := hval
    rw [Bool.and_eq_true] at hp
    obtain ⟨h1, h2⟩ := hp
    have h1' : m'.uid = msg.uid := by simpa using h1
    have hEq : m' = msg := List.inj_on_of_nodup_map hnodup hm'mem hmem h1'
    rw [hEq, hunseen] at h2
    exact Bool.false_ne_true h2

/-! ### Claim theorems -/

/-- Concrete poll-cycle input for claim C1: a fresh unread message from a
sender that is not on the allow-list. -/
def C1msg : Message :=
  ⟨1, some ⟨10000, "subj", [⟨"bob", "evil"⟩]⟩, [⟨"text/plain", "hi"⟩], true, false⟩

/-- One-message mailbox holding `C1msg`. -/
def C1mbox : Mailbox := ⟨[C1msg]⟩

/-- Concrete poll-cycle input for claim C1: a fresh unread message from an
allowed sender, polled while the bus hand-off fails. -/
def C1msgB : Message :=
  ⟨1, some ⟨10000, "subj", [⟨"bob", "good"⟩]⟩, [⟨"text/plain", "hi"⟩], true, false⟩

/-- One-message mailbox holding `C1msgB`. -/
def C1mboxB : Mailbox := ⟨[C1msgB]⟩

/-- C1 counterexample: "seen iff handed to the bus" fails on the code.  A
message from a non-allow-listed sender is handed to nobody (`inbound = []`,
`outbound = []`) yet ends up marked seen, and a message whose bus hand-off
fails (`busOk = false`) is likewise marked seen while unpublished. -/
theorem C1_seen_iff_handoff_false :
    (checkAccountMail 10000 ["alice@good"] "" "me@x" true C1mbox).inbound = [] ∧
    (checkAccountMail 10000 ["alice@good"] "" "me@x" true C1mbox).outbound = [] ∧
    uidSeen (checkAccountMail 10000 ["alice@good"] "" "me@x" true C1mbox).mailbox 1 = true ∧
    (checkAccountMail 10000 [] "" "me@x" false C1mboxB).inbound = [] ∧
    uidSeen (checkAccountMail 10000 [] "" "me@x" false C1mboxB).mailbox 1 = true := by
  decide

/-- C1 amended: in `checkAccountMail` every fetched message that passes the
staleness filter is marked seen unconditionally — for any allow-list and any
bus hand-off outcome — so allow-list rejections and publish failures do not
leave the message unread. -/
theorem C1_marked_seen_unconditionally (now : Int) (aL : List String) (fT aE : String)
    (busOk : Bool) (mbox : Mailbox) (msg : Message)
    (hmem : msg ∈ mbox.messages)
    (hcap : (cappedUids (unreadUids mbox)).contains msg.uid = true)
    (hfresh : staleFilter now msg = false) :
    uidSeen (checkAccountMail now aL fT aE busOk mbox).mailbox msg.uid = true := by
  rw [checkAccountMail_eq_foldl, pollFold_mailbox]
  apply markFold_seen
  · show uidPresent mbox msg.uid = true
    unfold uidPresent
    rw [List.any_eq_true]
    exact ⟨msg, hmem, by simp⟩
  · refine ⟨msg, ?_, rfl⟩
    rw [List.mem_filter]
    refine ⟨?_, by rw [hfresh]; rfl⟩
    unfold fetchedMessages
    rw [List.mem_filter]
    exact ⟨hmem, hcap⟩

/-- Witness for `C1_marked_seen_unconditionally` at the allow-list-rejected
input of the counterexample: hypotheses hold and the message is marked seen. -/
theorem C1_marked_seen_unconditionally_witness :
    (C1msg ∈ C1mbox.messages ∧
      (cappedUids (unreadUids C1mbox)).contains C1msg.uid = true ∧
      staleFilter 10000 C1msg = false) ∧
    uidSeen (checkAccountMail 10000 ["alice@good"] "" "me@x" true C1mbox).mailbox C1msg.uid = true :=
  ⟨⟨by decide, by decide, by decide⟩,
    C1_marked_seen_unconditionally 10000 ["alice@good"] "" "me@x" true C1mbox C1msg
      (by decide) (by decide) (by decide)⟩

/-- C2: an unread message whose envelope date is more than one hour older
than the poll time keeps its store entry unread, contributes nothing to the
cycle's published traffic (which comes exactly from the non-stale fetched
batch, of which it is not a member). -/
theorem C2_stale_skipped (now : Int) (aL : List String) (fT aE : String)
    (busOk : Bool) (mbox : Mailbox) (msg : Message)
    (hmem : msg ∈ mbox.messages) (hunseen : msg.seen = false)
    (hnodup : (mbox.messages.map (fun m => m.uid)).Nodup)
    (hstale : staleFilter now msg = true) :
    uidPresent (checkAccountMail now aL fT aE busOk mbox).mailbox msg.uid = true ∧
    uidSeen (checkAccountMail now aL fT aE busOk mbox).mailbox msg.uid = false ∧
    (checkAccountMail now aL fT aE busOk mbox).inbound =
      (nonStaleFetched now mbox).flatMap
        (fun m => (processMessage aL fT aE busOk m).inbound) ∧
    (checkAccountMail now aL fT aE busOk mbox).outbound =
      (nonStaleFetched now mbox).flatMap
        (fun m => (processMessage aL fT aE busOk m).outbound) ∧
    msg ∉ nonStaleFetched now mbox := by
  have hne : ∀ m ∈ nonStaleFetched now mbox, m.uid ≠ msg.uid := by
    intro m hmF hEq
    unfold nonStaleFetched at hmF
    rw [List.mem_filter] at hmF
    obtain ⟨hmF1, hmNS⟩ := hmF
    unfold fetchedMessages at hmF1
    rw [List.mem_filter] at hmF1
    have hmm : m = msg := List.inj_on_of_nodup_map hnodup hmF1.1 hmem hEq
    rw [hmm, hstale] at hmNS
    exact Bool.false_ne_true hmNS
  refine ⟨?_, ?_, checkAccountMail_inbound now aL fT aE busOk mbox,
    checkAccountMail_outbound now aL fT aE busOk mbox, ?_⟩
  · rw [uidPresent_checkAccountMail]
    unfold uidPresent
    rw [List.any_eq_true]
    exact ⟨msg, hmem, by simp⟩
  · rw [uidSeen_checkAccountMail_ne now aL fT aE busOk mbox msg.uid hne]
    exact uidSeen_false_of_unseen mbox msg hmem hunseen hnodup
  · intro hIn
    exact hne msg hIn rfl

/-- Concrete input for claim C2: an unread message one-and-a-bit hours old. -/
def C2msg : Message :=
  ⟨1, some ⟨5000, "old", [⟨"bob", "ok"⟩]⟩, [⟨"text/plain", "hi"⟩], true, false⟩

/-- One-message mailbox holding `C2msg`. -/
def C2mbox : Mailbox := ⟨[C2msg]⟩

/-- Witness for `C2_stale_skipped` at a poll 5000 seconds after the
envelope date: the message stays unread and is not in the processed batch. -/
theorem C2_stale_skipped_witness :
    staleFilter 10000 C2msg = true ∧
    uidSeen (checkAccountMail 10000 [] "" "me@x" true C2mbox).mailbox C2msg.uid = false ∧
    C2msg ∉ nonStaleFetched 10000 C2mbox :=
  ⟨by decide,
    (C2_stale_skipped 10000 [] "" "me@x" true C2mbox C2msg
      (by decide) (by decide) (by decide) (by decide)).2.1,
    (C2_stale_skipped 10000 [] "" "me@x" true C2mbox C2msg
      (by decide) (by decide) (by decide) (by decide)).2.2.2.2⟩

/-- C3: the per-cycle working set is capped at 10 unread messages — it is
the suffix (hence, for ascending UID lists, the 10 highest UIDs) of the
unread set, every dropped UID is bounded by every kept one, and an unread
message whose UID did not make the cap keeps its entry and stays unread. -/
theorem C3_cap_ten (now : Int) (aL : List String) (fT aE : String)
    (busOk : Bool) (mbox : Mailbox)
    (hnodup : (mbox.messages.map (fun m => m.uid)).Nodup)
    (hsorted : (unreadUids mbox).Pairwise (· ≤ ·)) :
    (cappedUids (unreadUids mbox)).length ≤ maxEmails ∧
    cappedUids (unreadUids mbox) =
      (unreadUids mbox).drop ((unreadUids mbox).length - maxEmails) ∧
    (∀ a ∈ (unreadUids mbox).take ((unreadUids mbox).length - maxEmails),
      ∀ b ∈ cappedUids (unreadUids mbox), a ≤ b) ∧
    (∀ msg ∈ mbox.messages, msg.seen = false →
      (cappedUids (unreadUids mbox)).contains msg.uid = false →
      uidPresent (checkAccountMail now aL fT aE busOk mbox).mailbox msg.uid = true ∧
      uidSeen (checkAccountMail now aL fT aE busOk mbox).mailbox msg.uid = false) := by
  have hdrop : cappedUids (unreadUids mbox) =
      (unreadUids mbox).drop ((unreadUids mbox).length - maxEmails) := by
    unfold cappedUids
    by_cases h : (unreadUids mbox).length > maxEmails
    · rw [if_pos h]
    · rw [if_neg h]
      rw [Nat.sub_eq_zero_of_le (by omega), List.drop_zero]
  refine ⟨?_, hdrop, ?_, ?_⟩
  · rw [hdrop, List.length_drop]
    omega
  · rw [hdrop]
    have hsplit := List.take_append_drop
      ((unreadUids mbox).length - maxEmails) (unreadUids mbox)
    rw [← hsplit] at hsorted
    exact (List.pairwise_append.mp hsorted).2.2
  · intro msg hmem hunseen hcap
    have hne : ∀ m ∈ nonStaleFetched now mbox, m.uid ≠ msg.uid := by
      intro m hmF hEq
      unfold nonStaleFetched at hmF
      rw [List.mem_filter] at hmF
      unfold fetchedMessages at hmF
      rw [List.mem_filter] at hmF
      rw [hEq, hcap] at hmF
      exact Bool.false_ne_true hmF.1.2
    refine ⟨?_, ?_⟩
    · rw [uidPresent_checkAccountMail]
      unfold uidPresent
      rw [List.any_eq_true]
      exact ⟨msg, hmem, by simp⟩
    · rw [uidSeen_checkAccountMail_ne now aL fT aE busOk mbox msg.uid hne]
      exact uidSeen_false_of_unseen mbox msg hmem hunseen hnodup

/-- Message template for the claim C3 witness: unread, fresh, allowed. -/
def C3msg (u : Nat) : Message :=
  ⟨u, some ⟨10000, "s", [⟨"b", "o"⟩]⟩, [⟨"text/plain", "x"⟩], true, false⟩

/-- A mailbox with 15 unread messages, UIDs 1..15 ascending. -/
def C3mbox : Mailbox :=
  ⟨[C3msg 1, C3msg 2, C3msg 3, C3msg 4, C3msg 5, C3msg 6, C3msg 7, C3msg 8,
    C3msg 9, C3msg 10, C3msg 11, C3msg 12, C3msg 13, C3msg 14, C3msg 15]⟩

/-- Witness for `C3_cap_ten`: with 15 unread messages the cap keeps 10 and
the message with UID 1 (below the cap) stays unread in the store. -/
theorem C3_cap_ten_witness :
    ((C3mbox.messages.map (fun m => m.uid)).Nodup ∧
      (unreadUids C3mbox).Pairwise (· ≤ ·) ∧
      (cappedUids (unreadUids C3mbox)).contains (C3msg 1).uid = false ∧
      (cappedUids (unreadUids C3mbox)).length = 10) ∧
    (cappedUids (unreadUids C3mbox)).length ≤ maxEmails ∧
    uidSeen (checkAccountMail 10000 [] "" "me@x" true C3mbox).mailbox (C3msg 1).uid = false :=
  ⟨⟨by decide, by decide, by decide, by decide⟩,
    (C3_cap_ten 10000 [] "" "me@x" true C3mbox (by decide) (by decide)).1,
    ((C3_cap_ten 10000 [] "" "me@x" true C3mbox (by decide) (by decide)).2.2.2
      (C3msg 1) (by decide) (by decide) (by decide)).2⟩

/-- C4 counterexample: `Start` is not guarded by the running flag.  Starting
an already-running channel returns nil (no error) and spawns a second poll
loop, contradicting "the second Start returns an error and does not start a
second poll loop". -/
theorem C4_second_start_not_rejected :
    (startEmail (startEmail ⟨false, 0⟩).1).2 = none ∧
    (startEmail (startEmail ⟨false, 0⟩).1).1.pollLoops = 2 := by
  decide

/-- C4 amended: `Start` performs no running-flag guard at all — from any run
state it sets `running`, spawns one more poll loop, and returns nil. -/
theorem C4_start_unguarded (s : RunState) :
    startEmail s = (⟨true, s.pollLoops + 1⟩, none) := rfl

/-- C5: a `Send` whose content is the reserved command `"CMD:CHECK"` fills
the manual-check slot and returns nil having executed no SMTP transport
step and selected no account. -/
theorem C5_send_check_command (accounts : List EmailAccountConfig)
    (oracle : SmtpStep → Option String) (slot : Bool) :
    sendEmail accounts "CMD:CHECK" oracle slot =
      ⟨SendResult.checkTriggered, [], none, true⟩ := by
  cases slot <;> rfl

/-- C6: `CheckNow` on the capacity-1 slot never blocks (it is total and
simply leaves a full slot full), is idempotent — so two requests issued
before the poll task consumes the slot coalesce — and draining the slot
after two back-to-back requests yields exactly one extra poll cycle. -/
theorem C6_checknow_coalesces :
    (∀ slot, checkNow slot = true) ∧
    (∀ slot, checkNow (checkNow slot) = checkNow slot) ∧
    consumeCheck (checkNow (checkNow false)) = (1, false) := by
  refine ⟨fun slot => ?_, fun slot => ?_, rfl⟩
  · cases slot <;> rfl
  · cases slot <;> rfl

/-! ### SMTP session lemmas -/

/-- The executed trace is an initial segment of the planned step order. -/
theorem runSteps_trace_initial (oracle : SmtpStep → Option String) :
    ∀ steps : List SmtpStep, ∃ t, (runSteps oracle steps).2 ++ t = steps
  | [] => ⟨[], rfl⟩
  | s :: rest => by
    cases h : oracle s
    · obtain ⟨t, ht⟩ := runSteps_trace_initial oracle rest
      exact ⟨t, by simp [runSteps, h, ht]⟩
    · exact ⟨rest, by simp [runSteps, h]⟩

/-- On a non-empty plan the first planned step is always executed first. -/
theorem runSteps_trace_head (oracle : SmtpStep → Option String)
    (s : SmtpStep) (rest : List SmtpStep) :
    ((runSteps oracle (s :: rest)).2).head? = some s := by
  cases h : oracle s <;> simp [runSteps, h]

/-- Unfolding `runSteps` when the head step succeeds. -/
theorem runSteps_cons_none (oracle : SmtpStep → Option String) (s : SmtpStep)
    (rest : List SmtpStep) (h : oracle s = none) :
    runSteps oracle (s :: rest) =
      ((runSteps oracle rest).1, s :: (runSteps oracle rest).2) := by
  simp [runSteps, h]

/-- Unfolding `runSteps` when the head step fails. -/
theorem runSteps_cons_some (oracle : SmtpStep → Option String) (s : SmtpStep)
    (rest : List SmtpStep) (e : String) (h : oracle s = some e) :
    runSteps oracle (s :: rest) = (SendResult.failed e, [s]) := by
  simp [runSteps, h]

/-- A failing run returns the error of the last executed step and stops there. -/
theorem runSteps_failed_last (oracle : SmtpStep → Option String) :
    ∀ (steps : List SmtpStep) (e : String),
      (runSteps oracle steps).1 = SendResult.failed e →
      ∃ s, ((runSteps oracle steps).2).getLast? = some s ∧ oracle s = some e
  | [], e, h => by simp [runSteps] at h
  | s :: rest, e, h => by
    cases ho : oracle s with
    | none =>
      rw [runSteps_cons_none oracle s rest ho] at h ⊢
      obtain ⟨s', hs', he'⟩ := runSteps_failed_last oracle rest e h
      refine ⟨s', ?_, he'⟩
      cases htr : (runSteps oracle rest).2 with
      | nil =>
        rw [htr] at hs'
        simp at hs'
      | cons hd tl =>
        rw [htr] at hs'
        show (s :: hd :: tl).getLast? = some s'
        rw [List.getLast?_cons_cons]
        exact hs'
    | some ev =>
      rw [runSteps_cons_some oracle s rest ev ho] at h ⊢
      have hee : ev = e := by
        have : SendResult.failed ev = SendResult.failed e := h
        cases this
        rfl
      rw [hee] at ho
      exact ⟨s, rfl, ho⟩

/-- Running steps only ever answers success or a step's failure. -/
theorem runSteps_ne_panicked (oracle : SmtpStep → Option String) :
    ∀ steps : List SmtpStep, (runSteps oracle steps).1 ≠ SendResult.panicked
  | [] => by simp [runSteps]
  | s :: rest => by
    cases h : oracle s
    · simpa [runSteps, h] using runSteps_ne_panicked oracle rest
    · simp [runSteps, h]

/-- Evaluating `Send` with non-command content, without the command guard. -/
theorem sendEmail_noncmd (accounts : List EmailAccountConfig) (content : String)
    (oracle : SmtpStep → Option String) (slot : Bool)
    (h : trimSpace content ≠ "CMD:CHECK") :
    sendEmail accounts content oracle slot =
      match accounts with
      | [] => ⟨SendResult.panicked, [], none, slot⟩
      | account :: _ =>
        let run :=
          if account.smtpPort = 465 then runSteps oracle smtp465Order
          else runSteps oracle [SmtpStep.sendMailStartTLS]
        ⟨run.1, run.2, some account, slot⟩ := by
  unfold sendEmail
  rw [if_neg h]

/-- C9: for a non-command `Send`, port 465 opens the session with the TLS
handshake — the executed trace starts with `tlsDial` and is an initial
segment of the fixed TLS-first step order — while any other port runs the
`smtp.SendMail` plaintext-then-STARTTLS exchange; a failing step aborts the
session, returning that step's transport error, and no step is retried
(the trace has no duplicates). -/
theorem C9_send_port_modes (acc : EmailAccountConfig) (rest : List EmailAccountConfig)
    (content : String) (oracle : SmtpStep → Option String) (slot : Bool)
    (hncmd : trimSpace content ≠ "CMD:CHECK") :
    (acc.smtpPort = 465 →
      ((sendEmail (acc :: rest) content oracle slot).trace).head? = some SmtpStep.tlsDial ∧
      ∃ t, (sendEmail (acc :: rest) content oracle slot).trace ++ t = smtp465Order) ∧
    (acc.smtpPort ≠ 465 →
      (sendEmail (acc :: rest) content oracle slot).trace = [SmtpStep.sendMailStartTLS]) ∧
    (∀ e, (sendEmail (acc :: rest) content oracle slot).result = SendResult.failed e →
      ∃ s, ((sendEmail (acc :: rest) content oracle slot).trace).getLast? = some s ∧
        oracle s = some e) ∧
    ((sendEmail (acc :: rest) content oracle slot).trace).Nodup := by
  rw [sendEmail_noncmd (acc :: rest) content oracle slot hncmd]
  by_cases hp : acc.smtpPort = 465
  · simp only [if_pos hp]
    refine ⟨fun _ => ⟨runSteps_trace_head oracle _ _, runSteps_trace_initial oracle _⟩,
      fun hne => absurd hp hne, fun e he => runSteps_failed_last oracle _ e he, ?_⟩
    obtain ⟨t, ht⟩ := runSteps_trace_initial oracle smtp465Order
    have horder : smtp465Order.Nodup := by decide
    rw [← ht] at horder
    exact horder.of_append_left
  · simp only [if_neg hp]
    refine ⟨fun h => absurd h hp, fun _ => ?_, fun e he => ?_, ?_⟩
    · cases h : oracle SmtpStep.sendMailStartTLS <;> simp [runSteps, h]
    · exact runSteps_failed_last oracle _ e he
    · cases h : oracle SmtpStep.sendMailStartTLS <;> simp [runSteps, h]

/-- Concrete account for the `Send` witnesses: SMTP port 465. -/
def C9acc : EmailAccountConfig :=
  ⟨"me@x", "imap.x", 993, "me@x", "pw", "smtp.x", 465, "me@x", "pw"⟩

/-- Witness for `C9_send_port_modes` on a port-465 account with a transport
whose `Auth` step fails: TLS dial comes first and the auth error is returned. -/
theorem C9_send_port_modes_witness :
    trimSpace "hello" ≠ "CMD:CHECK" ∧
    ((sendEmail [C9acc] "hello"
        (fun s => if s = SmtpStep.auth then some "auth failed" else none) false).trace).head? =
      some SmtpStep.tlsDial ∧
    (∃ s, ((sendEmail [C9acc] "hello"
        (fun s => if s = SmtpStep.auth then some "auth failed" else none) false).trace).getLast? =
          some s ∧
      (fun s => if s = SmtpStep.auth then some "auth failed" else none) s = some "auth failed") :=
  ⟨by decide,
    ((C9_send_port_modes C9acc [] "hello"
      (fun s => if s = SmtpStep.auth then some "auth failed" else none) false (by decide)).1
        rfl).1,
    (C9_send_port_modes C9acc [] "hello"
      (fun s => if s = SmtpStep.auth then some "auth failed" else none) false (by decide)).2.2.1
        "auth failed" (by decide)⟩

/-- C10: with the constructed account list empty (no `Accounts` entries and
no legacy IMAP fields to synthesize one), a non-command `Send` hits the
`Accounts[0]` index out of range and panics; with at least one account,
`Send` selects the first account and never reaches the panic. -/
theorem C10_send_account_selection (cfg : EmailConfig) (content : String)
    (oracle : SmtpStep → Option String) (slot : Bool)
    (hncmd : trimSpace content ≠ "CMD:CHECK") :
    ((cfg.accounts = [] ∧ cfg.imapServer = "") →
      (sendEmail (effectiveAccounts cfg) content oracle slot).result = SendResult.panicked) ∧
    (∀ a rest, effectiveAccounts cfg = a :: rest →
      (sendEmail (effectiveAccounts cfg) content oracle slot).usedAccount = some a ∧
      (sendEmail (effectiveAccounts cfg) content oracle slot).result ≠ SendResult.panicked) := by
  constructor
  · intro ⟨hacc, himap⟩
    have heff : effectiveAccounts cfg = [] := by
      unfold effectiveAccounts
      rw [if_neg (by simp [himap])]
      exact hacc
    rw [heff, sendEmail_noncmd [] content oracle slot hncmd]
  · intro a rest heff
    rw [heff, sendEmail_noncmd (a :: rest) content oracle slot hncmd]
    refine ⟨rfl, ?_⟩
    by_cases hp : a.smtpPort = 465
    · simpa only [hp, if_pos] using runSteps_ne_panicked oracle smtp465Order
    · simpa only [hp, if_neg] using runSteps_ne_panicked oracle [SmtpStep.sendMailStartTLS]

/-- A config with no accounts and no legacy single-account IMAP fields. -/
def C10cfgEmpty : EmailConfig :=
  ⟨[], "", 0, "", "", "", 0, "", "", [], "", 60⟩

/-- A config carrying one explicit account. -/
def C10cfgOne : EmailConfig :=
  ⟨[C9acc], "", 0, "", "", "", 0, "", "", [], "", 60⟩

/-- Witness for `C10_send_account_selection`: the empty config panics on a
non-command `Send`, the one-account config selects that account. -/
theorem C10_send_account_selection_witness :
    trimSpace "hi" ≠ "CMD:CHECK" ∧
    (sendEmail (effectiveAccounts C10cfgEmpty) "hi" (fun _ => none) false).result =
      SendResult.panicked ∧
    (sendEmail (effectiveAccounts C10cfgOne) "hi" (fun _ => none) false).usedAccount =
      some C9acc :=
  ⟨by decide,
    (C10_send_account_selection C10cfgEmpty "hi" (fun _ => none) false (by decide)).1
      ⟨rfl, rfl⟩,
    ((C10_send_account_selection C10cfgOne "hi" (fun _ => none) false (by decide)).2
      C9acc [] (by decide)).1⟩

/-- The forward publication happens before — and does not consult — the
primary `HandleMessage` hand-off, so it is independent of the bus outcome. -/
theorem processMessage_outbound_indep (aL : List String) (fT aE : String)
    (b1 b2 : Bool) (msg : Message) :
    (processMessage aL fT aE b1 msg).outbound =
      (processMessage aL fT aE b2 msg).outbound := by
  obtain ⟨uid, envOpt, parts, hasBody, seen⟩ := msg
  cases envOpt with
  | none => rfl
  | some env =>
    obtain ⟨date, subject, fromAddrs⟩ := env
    cases fromAddrs with
    | nil => rfl
    | cons addr rest =>
      cases hasBody with
      | false => simp [processMessage, ite_self]
      | true =>
        by_cases hA : IsAllowed aL (senderOf addr) = true
        · simp only [processMessage, hA, ite_true]
        · simp only [processMessage, hA, ite_false, Bool.false_eq_true]

/-- C7: for a processed message with a body over 500 characters and a
configured `"channel:chatID"` forward target, the forward notification is
published with the body cut at 500 characters plus an ellipsis marker, the
primary inbound message (when the bus hand-off succeeds) carries the full
body, and the forward is published for every bus outcome — independent of
the primary path. -/
theorem C7_forward_truncated (aL : List String) (fT aE : String)
    (msg : Message) (env : Envelope) (addr : Address) (frest : List Address)
    (channel targetChatID : String)
    (henv : msg.envelope = some env)
    (hfrom : env.fromAddrs = addr :: frest)
    (hallow : IsAllowed aL (senderOf addr) = true)
    (hbody : msg.hasBody = true)
    (hfne : fT ≠ "")
    (hsplit : splitN2 fT ':' = [channel, targetChatID])
    (hlen : (extractBody msg.parts).length > 500) :
    (processMessage aL fT aE true msg).outbound =
      [⟨channel, targetChatID,
        forwardHeader aE (senderOf addr) env.subject ++
          (extractBody msg.parts).take 500 ++ "..."⟩] ∧
    (processMessage aL fT aE true msg).inbound =
      [⟨"email", senderOf addr, senderOf addr,
        contentWithContext aE env.subject (extractBody msg.parts),
        [("subject", env.subject), ("email", senderOf addr), ("to", aE)]⟩] ∧
    (∀ busOk : Bool, (processMessage aL fT aE busOk msg).outbound =
      (processMessage aL fT aE true msg).outbound) := by
  refine ⟨?_, ?_, fun busOk => processMessage_outbound_indep aL fT aE busOk true msg⟩ <;>
    simp [processMessage, henv, hfrom, hallow, hbody, hfne, hsplit, hlen, HandleMessage]

/-- Body of 501 characters for the claim C7 witness. -/
def C7body : String := ⟨List.replicate 501 'a'⟩

/-- Message with an over-500-character plain-text body for the C7 witness. -/
def C7msg : Message :=
  ⟨1, some ⟨10000, "S", [⟨"bob", "ok"⟩]⟩, [⟨"text/plain", C7body⟩], true, false⟩

/-- Witness for `C7_forward_truncated` on a 501-character body forwarded to
`"discord:12345"`: truncated forward, full-body primary. -/
theorem C7_forward_truncated_witness :
    ((extractBody C7msg.parts).length > 500 ∧
      splitN2 "discord:12345" ':' = ["discord", "12345"]) ∧
    (processMessage [] "discord:12345" "me@x" true C7msg).outbound =
      [⟨"discord", "12345",
        forwardHeader "me@x" (senderOf ⟨"bob", "ok"⟩) "S" ++
          (extractBody C7msg.parts).take 500 ++ "..."⟩] ∧
    (processMessage [] "discord:12345" "me@x" true C7msg).inbound =
      [⟨"email", senderOf ⟨"bob", "ok"⟩, senderOf ⟨"bob", "ok"⟩,
        contentWithContext "me@x" "S" (extractBody C7msg.parts),
        [("subject", "S"), ("email", senderOf ⟨"bob", "ok"⟩), ("to", "me@x")]⟩] :=
  ⟨⟨by decide, by decide⟩,
    (C7_forward_truncated [] "discord:12345" "me@x" C7msg ⟨10000, "S", [⟨"bob", "ok"⟩]⟩
      ⟨"bob", "ok"⟩ [] "discord" "12345" rfl rfl (by decide) rfl (by decide) (by decide)
      (by decide)).1,
    (C7_forward_truncated [] "discord:12345" "me@x" C7msg ⟨10000, "S", [⟨"bob", "ok"⟩]⟩
      ⟨"bob", "ok"⟩ [] "discord" "12345" rfl rfl (by decide) rfl (by decide) (by decide)
      (by decide)).2.1⟩

/-- C8 counterexample: with no `text/plain` part present, the body does not
fall back to the first encountered alternative part — a leading
`application/json` part is ignored outright and a later `text/html` part
wins instead. -/
theorem C8_first_alternative_false :
    extractBody [⟨"application/json", "X"⟩, ⟨"text/html", "Y"⟩] = "Y" ∧
    ("Y" : String) ≠ "X" := by
  decide

/-- First non-empty `text/html` content in part order — the fallback the
extraction loop actually implements. -/
def htmlFallback : List MailPart → String
  | [] => ""
  | p :: rest =>
    if p.contentType = "text/html" ∧ p.content ≠ "" then p.content
    else htmlFallback rest

/-- A non-empty accumulated body survives any plain-free tail. -/
theorem extractBodyAux_no_plain_nonempty (b : String) (hb : b ≠ "") :
    ∀ parts : List MailPart, (∀ p ∈ parts, p.contentType ≠ "text/plain") →
      extractBodyAux b parts = b
  | [], _ => rfl
  | p :: rest, h => by
    unfold extractBodyAux
    rw [if_neg (h p (.head rest)), if_neg (fun hc => hb hc.2)]
    exact extractBodyAux_no_plain_nonempty b hb rest (fun q hq => h q (.tail p hq))

/-- With no plain part, extraction from an empty body is the html fallback. -/
theorem extractBodyAux_no_plain_empty :
    ∀ parts : List MailPart, (∀ p ∈ parts, p.contentType ≠ "text/plain") →
      extractBodyAux "" parts = htmlFallback parts
  | [], _ => rfl
  | p :: rest, h => by
    unfold extractBodyAux htmlFallback
    rw [if_neg (h p (.head rest))]
    by_cases hh : p.contentType = "text/html"
    · by_cases hc : p.content = ""
      · rw [if_pos ⟨hh, rfl⟩, if_neg (fun hx => hx.2 hc), hc]
        exact extractBodyAux_no_plain_empty rest (fun q hq => h q (.tail p hq))
      · rw [if_pos ⟨hh, rfl⟩, if_pos ⟨hh, hc⟩]
        exact extractBodyAux_no_plain_nonempty p.content hc rest (fun q hq => h q (.tail p hq))
    · rw [if_neg (fun hx => hh hx.1), if_neg (fun hx => hh hx.1)]
      exact extractBodyAux_no_plain_empty rest (fun q hq => h q (.tail p hq))

/-- A final plain part with non-empty content decides the body, whatever
came before it. -/
theorem extractBodyAux_last_plain (lp : MailPart) (post : List MailPart)
    (hlp : lp.contentType = "text/plain") (hne : lp.content ≠ "")
    (hpost : ∀ p ∈ post, p.contentType ≠ "text/plain") :
    ∀ (pre : List MailPart) (b : String),
      extractBodyAux b (pre ++ lp :: post) = lp.content
  | [], b => by
    rw [List.nil_append]
    unfold extractBodyAux
    rw [if_pos hlp]
    exact extractBodyAux_no_plain_nonempty lp.content hne post hpost
  | p :: pre, b => by
    rw [List.cons_append]
    unfold extractBodyAux
    by_cases h1 : p.contentType = "text/plain"
    · rw [if_pos h1]
      exact extractBodyAux_last_plain lp post hlp hne hpost pre p.content
    · rw [if_neg h1]
      by_cases h2 : p.contentType = "text/html" ∧ b = ""
      · rw [if_pos h2]
        exact extractBodyAux_last_plain lp post hlp hne hpost pre p.content
      · rw [if_neg h2]
        exact extractBodyAux_last_plain lp post hlp hne hpost pre b

/-- C8 amended: extraction prefers `text/plain` with last-wins semantics —
if the last `text/plain` part has non-empty content, the body is exactly
that content; when no `text/plain` part exists at all, the body falls back
to the first non-empty `text/html` part (parts of any other type are
ignored, leaving the body empty when no such html part exists). -/
theorem C8_body_extraction (parts : List MailPart) :
    ((∀ p ∈ parts, p.contentType ≠ "text/plain") →
      extractBody parts = htmlFallback parts) ∧
    (∀ (pre : List MailPart) (lp : MailPart) (post : List MailPart),
      parts = pre ++ lp :: post →
      lp.contentType = "text/plain" → lp.content ≠ "" →
      (∀ p ∈ post, p.contentType ≠ "text/plain") →
      extractBody parts = lp.content) := by
  constructor
  · intro h
    exact extractBodyAux_no_plain_empty parts h
  · intro pre lp post hsplit hlp hne hpost
    rw [hsplit]
    exact extractBodyAux_last_plain lp post hlp hne hpost pre ""

/-- Witness for `C8_body_extraction`: the html fallback on a plain-free
message, and the last plain part winning on a mixed message. -/
theorem C8_body_extraction_witness :
    ((∀ p ∈ [MailPart.mk "application/json" "X", MailPart.mk "text/html" "Y"],
        p.contentType ≠ "text/plain") ∧
      extractBody [⟨"application/json", "X"⟩, ⟨"text/html", "Y"⟩] =
        htmlFallback [⟨"application/json", "X"⟩, ⟨"text/html", "Y"⟩]) ∧
    extractBody [⟨"text/html", "H"⟩, ⟨"text/plain", "P"⟩] = "P" :=
  ⟨⟨by decide,
    (C8_body_extraction [⟨"application/json", "X"⟩, ⟨"text/html", "Y"⟩]).1 (by decide)⟩,
    (C8_body_extraction [⟨"text/html", "H"⟩, ⟨"text/plain", "P"⟩]).2
      [⟨"text/html", "H"⟩] ⟨"text/plain", "P"⟩ [] rfl rfl (by decide) (by decide)⟩

end Picoclaw
